import Mathlib

/-!
Verification of the image-gallery-server thumbnail pipeline
(`src/bin/server-runner.js`) against its natural-language specification.

The JavaScript source is shallowly embedded: pure computations become Lean
functions over `Nat` / `String` / `List`, stateful code becomes explicit
state passing, and filesystem I/O is abstracted into explicit inputs
(directory listings, existence predicates).  JS numbers that stay small
non-negative integers are modelled as `Nat`.
-/

namespace GalleryServer

/-! ### Base64 codec

`server-runner.js` names thumbnails `Buffer.from(relativePath).toString('base64') + ".jpg"`
and orphan cleanup decodes with `Buffer.from(base64Path, 'base64').toString('utf8')`.
We model the codec at the byte level (a JS string is turned into its UTF-8
bytes by `Buffer.from`): `b64encode` maps a byte list to the base64 character
list (with `'='` padding, as Node produces), and `b64decode` maps characters
back to bytes, ignoring non-alphabet characters and padding just as Node's
lenient decoder does. -/

/-- The base64 value → character table used by Node (standard alphabet). -/
def valToChar (v : Nat) : Char :=
  if v < 26 then Char.ofNat (65 + v)
  else if v < 52 then Char.ofNat (97 + (v - 26))
  else if v < 62 then Char.ofNat (48 + (v - 52))
  else if v = 62 then '+'
  else '/'

/-- Base64 character → value; `none` for non-alphabet characters
(including the `'='` pad), which Node's decoder skips. -/
def charToVal (c : Char) : Option Nat :=
  if 'A' ≤ c ∧ c ≤ 'Z' then some (c.toNat - 65)
  else if 'a' ≤ c ∧ c ≤ 'z' then some (c.toNat - 97 + 26)
  else if '0' ≤ c ∧ c ≤ '9' then some (c.toNat - 48 + 52)
  else if c = '+' then some 62
  else if c = '/' then some 63
  else none

/-- Base64 encoding of a byte sequence, producing the padded character
sequence exactly as `Buffer.toString('base64')` does. -/
def b64encode : List Nat → List Char
  | [] => []
  | [b0] =>
      [valToChar (b0 / 4), valToChar (b0 % 4 * 16), '=', '=']
  | [b0, b1] =>
      [valToChar (b0 / 4), valToChar (b0 % 4 * 16 + b1 / 16),
       valToChar (b1 % 16 * 4), '=']
  | b0 :: b1 :: b2 :: rest =>
      valToChar (b0 / 4) :: valToChar (b0 % 4 * 16 + b1 / 16) ::
      valToChar (b1 % 16 * 4 + b2 / 64) :: valToChar (b2 % 64) ::
      b64encode rest

/-- Reassemble bytes from a stream of six-bit values: full groups of four
sextets give three bytes; a trailing group of two or three sextets gives
one or two bytes (the cases arising from `'='` padding). -/
def sextetsToBytes : List Nat → List Nat
  | s0 :: s1 :: s2 :: s3 :: rest =>
      (s0 * 4 + s1 / 16) :: (s1 % 16 * 16 + s2 / 4) ::
      (s2 % 4 * 64 + s3) :: sextetsToBytes rest
  | [s0, s1] => [s0 * 4 + s1 / 16]
  | [s0, s1, s2] => [s0 * 4 + s1 / 16, s1 % 16 * 16 + s2 / 4]
  | _ => []

/-- Base64 decoding as Node's lenient decoder performs it: non-alphabet
characters (among them the `'='` pad) are dropped, then sextets are packed
back into bytes. -/
def b64decode (cs : List Char) : List Nat :=
  sextetsToBytes (cs.filterMap charToVal)

/-- Bytes as `Buffer.from(s)` produces them: the UTF-8 bytes of a JS string,
as natural numbers. -/
def strBytes (s : String) : List Nat :=
  (s.data.flatMap String.utf8EncodeChar).map (fun b => b.toNat)

/-- `Buffer.from(media.relativePath).toString('base64')`, the thumbnail key. -/
def keyFor (rel : String) : String :=
  String.mk (b64encode (strBytes rel))

/-! ### Media classifier (`isImage` / `isVideo` / `isMedia` / `isLikelyThumbnail`) -/

/-- `IMAGE_EXTENSIONS` from `server-runner.js`. -/
def IMAGE_EXTENSIONS : List String :=
  [".jpg", ".jpeg", ".png", ".gif", ".bmp", ".webp", ".tiff", ".svg"]

/-- `VIDEO_EXTENSIONS` from `server-runner.js`. -/
def VIDEO_EXTENSIONS : List String :=
  [".mp4", ".mov", ".avi", ".mkv", ".webm", ".ogg", ".m4v", ".3gp", ".wmv", ".flv"]

/-- Does `s` start with `pat` (character lists)?  Several core `String`
operations are reimplemented below over `List Char` so that every
definition evaluates inside the kernel. -/
def startsWithChars : List Char → List Char → Bool
  | [], _ => true
  | _ :: _, [] => false
  | p :: ps, c :: cs => p == c && startsWithChars ps cs

/-- JS `String.prototype.startsWith`. -/
def startsWithStr (s pat : String) : Bool :=
  startsWithChars pat.data s.data

/-- JS `String.prototype.endsWith`. -/
def endsWithStr (s pat : String) : Bool :=
  startsWithChars pat.data.reverse s.data.reverse

/-- JS `String.prototype.toLowerCase` (ASCII letters, as relevant for
file extensions and directory-name conventions). -/
def toLowerStr (s : String) : String :=
  String.mk (s.data.map Char.toLower)

/-- Split a character list on a separator character (JS `split(sep)`). -/
def splitChars (sep : Char) : List Char → List (List Char)
  | [] => [[]]
  | c :: cs =>
      match splitChars sep cs with
      | [] => [[]]
      | g :: gs => if c == sep then [] :: g :: gs else (c :: g) :: gs

/-- JS `path.split(path.sep)` for `'/'`-separated paths. -/
def splitOnSlash (s : String) : List String :=
  (splitChars '/' s.data).map String.mk

/-- Remove the first occurrence of `pat` from a character list; the list is
unchanged when `pat` does not occur. -/
def removeFirstOcc (pat : List Char) : List Char → List Char
  | [] => []
  | c :: cs =>
      if startsWithChars pat (c :: cs) then (c :: cs).drop pat.length
      else c :: removeFirstOcc pat cs

/-- JS `s.replace(pat, '')` for a plain-string pattern: removes the first
occurrence of `pat`. -/
def replaceFirst (s pat : String) : String :=
  String.mk (removeFirstOcc pat.data s.data)

/-- `path.extname`: the substring from the last `'.'` to the end, or `""`
when there is no dot or the only dot is the leading character. -/
def extname (name : String) : String :=
  let cs := name.data
  let tailPart := cs.reverse.takeWhile (fun c => c ≠ '.')
  if tailPart.length = cs.length then ""
  else if tailPart.length + 1 = cs.length then ""
  else String.mk ('.' :: tailPart.reverse)

/-- `isImage(filename)`: extension (lower-cased) in the image allow-list. -/
def isImage (filename : String) : Bool :=
  IMAGE_EXTENSIONS.contains (toLowerStr (extname filename))

/-- `isVideo(filename)`: extension (lower-cased) in the video allow-list. -/
def isVideo (filename : String) : Bool :=
  VIDEO_EXTENSIONS.contains (toLowerStr (extname filename))

/-- `isMedia(filename)`. -/
def isMedia (filename : String) : Bool :=
  isImage filename || isVideo filename

/-- JS `String.prototype.includes`: does `pat` occur as a contiguous
substring of `s`? -/
def containsSubstr (pat : String) (s : String) : Bool :=
  go pat.data s.data
where
  go (p : List Char) : List Char → Bool
    | [] => startsWithChars p []
    | c :: cs => startsWithChars p (c :: cs) || go p cs

/-- JS `path.dirname` for `'/'`-separated paths (no trailing separators). -/
def dirname (s : String) : String :=
  let rest := s.data.reverse.dropWhile (fun c => c ≠ '/')
  match rest with
  | [] => "."
  | _ :: t => if t.isEmpty then "/" else String.mk t.reverse

/-- One character of the base64 filename alphabet `[A-Za-z0-9+/]`. -/
def isB64Char (c : Char) : Bool :=
  ('A' ≤ c && c ≤ 'Z') || ('a' ≤ c && c ≤ 'z') ||
  ('0' ≤ c && c ≤ '9') || c == '+' || c == '/'

/-- The regular expression `^[A-Za-z0-9+/]+=*\.jpg$` from `isLikelyThumbnail`:
one or more base64-alphabet characters, then optional `'='` padding, then
the literal `.jpg`.  (The alphabet excludes `'.'` and `'='`, so the greedy
reading used here is exactly the regex language.) -/
def matchesThumbPattern (name : String) : Bool :=
  let cs := name.data
  if 4 ≤ cs.length && cs.drop (cs.length - 4) == ['.', 'j', 'p', 'g'] then
    let stem := cs.take (cs.length - 4)
    let alphaPart := stem.takeWhile isB64Char
    let padPart := stem.drop alphaPart.length
    !alphaPart.isEmpty && padPart.all (fun c => c == '=')
  else false

/-- The thumbnail-directory conventions checked by `isLikelyThumbnail`. -/
def thumbnailDirs : List String := ["thumbnails", "thumb", "thumbs", ".thumbnails"]

/-- `isLikelyThumbnail(filePath, filename)`: inside a `.gallery-cache`
directory, or base64-pattern file name, or a path segment matching a
thumbnail-directory convention. -/
def isLikelyThumbnail (filePath : String) (filename : String) : Bool :=
  if containsSubstr ".gallery-cache" filePath then true
  else if matchesThumbPattern filename then true
  else
    let dirParts := splitOnSlash (toLowerStr (dirname filePath))
    if thumbnailDirs.any (fun d => dirParts.contains d) then true
    else false

/-! ### Directory scanner (`scanDirectory`)

The filesystem is modelled as a tree of entries; a directory carries
`none` as contents when `fs.readdir` on it fails (unreadable), in which
case the `catch` in `scanDirectory` swallows the error and the recursive
call contributes no descriptors.  The `scanningState` progress counters
feed only the optional SSE side channel and never the returned list, so
they are not modelled here. -/

/-- One media descriptor as `scanDirectory` builds it. -/
structure MediaDescriptor where
  name : String
  path : String
  relativePath : String
  directory : String
  size : Nat
  modified : Nat
  type : String
deriving DecidableEq, Repr

/-- A filesystem entry: a regular file with stat data, or a directory
whose contents are `none` exactly when reading it fails. -/
inductive FSEntry where
  | file (name : String) (size : Nat) (mtime : Nat) : FSEntry
  | dir (name : String) (contents : Option (List FSEntry)) : FSEntry

/-- `path.relative(scanDir, …)` of a child, given the parent's relative dir. -/
def joinRel (relDir name : String) : String :=
  if relDir = "" then name else relDir ++ "/" ++ name

/-- The subdirectory filter in `scanDirectory`: not hidden, not
`node_modules`, not `.gallery-cache`. -/
def dirAllowed (name : String) : Bool :=
  !startsWithStr name "." && name ≠ "node_modules" && name ≠ ".gallery-cache"

/-- The body of `scanDirectory`'s loop over one directory listing:
`dirPath` is the absolute path of the directory being scanned and
`relDir` its path relative to the scan root (`""` at the root). -/
def scanList (dirPath relDir : String) : List FSEntry → List MediaDescriptor
  | [] => []
  | FSEntry.file name size mtime :: rest =>
      (if isMedia name && !isLikelyThumbnail (dirPath ++ "/" ++ name) name then
        [{ name := name, path := dirPath ++ "/" ++ name,
           relativePath := joinRel relDir name,
           directory := if relDir = "" then "." else relDir,
           size := size, modified := mtime,
           type := if isImage name then "image" else "video" }]
      else []) ++ scanList dirPath relDir rest
  | FSEntry.dir name contents :: rest =>
      (if dirAllowed name then
        match contents with
        | none => []
        | some entries =>
            scanList (dirPath ++ "/" ++ name) (joinRel relDir name) entries
      else []) ++ scanList dirPath relDir rest

/-- `scanDirectory(scanDir, true)`: the root readdir may itself fail,
in which case the catch yields the empty list. -/
def scanDirectory (scanDirPath : String) (root : Option (List FSEntry)) :
    List MediaDescriptor :=
  match root with
  | none => []
  | some entries => scanList scanDirPath "" entries

/-! ### Orphan-thumbnail cleanup (`cleanupOrphanedThumbnails`)

The thumbnails directory listing is an explicit list of file names.
`decode` models `Buffer.from(base64Path, 'base64').toString('utf8')`
together with the surrounding `try`: `none` is the `catch` path (key
fails to decode).  `sourceExists` models `fs.access(path.join(scanDir,
originalPath))`, taking the decoded relative path. -/

/-- The loop of `cleanupOrphanedThumbnails`, returning the list of
thumbnail files it unlinks (in order).  A non-`.jpg` entry is skipped; a
key that fails to decode is skipped (logged); a key whose decoded source
still exists is kept; otherwise the file is unlinked. -/
def cleanupOrphanedThumbnails (decode : String → Option String)
    (sourceExists : String → Bool) : List String → List String
  | [] => []
  | t :: rest =>
      if !endsWithStr t ".jpg" then cleanupOrphanedThumbnails decode sourceExists rest
      else
        match decode (replaceFirst t ".jpg") with
        | none => cleanupOrphanedThumbnails decode sourceExists rest
        | some orig =>
            if sourceExists orig then cleanupOrphanedThumbnails decode sourceExists rest
            else t :: cleanupOrphanedThumbnails decode sourceExists rest

/-- A listing entry that `cleanupOrphanedThumbnails` removes: a `.jpg`
file whose key decodes to a source path that no longer exists. -/
def isOrphanKey (decode : String → Option String) (sourceExists : String → Bool)
    (t : String) : Bool :=
  endsWithStr t ".jpg" &&
    ((decode (replaceFirst t ".jpg")).map (fun p => !sourceExists p)).getD false

/-! ### File-watcher removal handler (`setupFileWatching`, `unlink` event)

When the watcher reports a deleted media file, the handler invalidates the
cache and unlinks the single thumbnail `base64(relativePath) + ".jpg"`,
swallowing any unlink error (`.catch(() => {})`).  The thumbnails
directory is modelled as a list of file names; `List.erase` captures
`fs.unlink` (removes the file when present) together with the swallowed
error (listing unchanged when absent), making the handler total. -/

/-- On-disk name of the full thumbnail variant for a relative path. -/
def fullThumbName (rel : String) : String := keyFor rel ++ ".jpg"

/-- On-disk name of the tiny preview variant for a relative path
(written by `generateTinyPreview`). -/
def tinyThumbName (rel : String) : String := keyFor rel ++ "_tiny.jpg"

/-- The watcher's media-extension filter:
`mediaExtensions.some(ext => filePath.toLowerCase().endsWith(ext))`. -/
def watcherMediaExt (p : String) : Bool :=
  (IMAGE_EXTENSIONS ++ VIDEO_EXTENSIONS).any
    (fun ext => endsWithStr (toLowerStr p) ext)

/-- The `unlink`-event handler's effect on the thumbnails directory,
given the deleted file's path relative to the scan root. -/
def onSourceRemoved (thumbs : List String) (rel : String) : List String :=
  if watcherMediaExt rel then thumbs.erase (fullThumbName rel) else thumbs

/-! ### Cache coordinator (`galleryCache` / `getCachedGalleryData`)

`getCachedGalleryData` serves the cached snapshot when it is present, not
stale and younger than `CACHE_DURATION`; otherwise it runs orphan cleanup,
rescans, assembles a fresh result and stores it.  The I/O-heavy fresh
path (cleanup, `scanDirectory`, per-descriptor `hasThumbnail` probes,
snapshot assembly) is abstracted into the `freshData` input; the returned
`Bool` records whether that rescan path ran. -/

/-- The assembled gallery result (the object built by the fresh-scan path). -/
structure GalleryData where
  totalImages : Nat
  pendingThumbnails : Nat
  lastScan : Nat
deriving DecidableEq, Repr

/-- `galleryCache`: cached data, timestamp of the last scan, staleness flag. -/
structure GalleryCache where
  data : Option GalleryData
  lastScan : Nat
  isStale : Bool
deriving DecidableEq, Repr

/-- `CACHE_DURATION`: 30 seconds, in milliseconds. -/
def CACHE_DURATION : Nat := 30000

/-- `invalidateCache`: marks the snapshot stale (rescan happens lazily). -/
def invalidateCache (c : GalleryCache) : GalleryCache :=
  { c with isStale := true }

/-- `getCachedGalleryData` at time `now`: cached data is returned untouched
while valid; otherwise the fresh result (stamped with `now`) is stored.
Returns (result, updated cache, whether a rescan was performed). -/
def getCachedGalleryData (now : Nat) (freshData : GalleryData)
    (c : GalleryCache) : GalleryData × GalleryCache × Bool :=
  match c.data with
  | some d =>
      if !c.isStale ∧ now - c.lastScan < CACHE_DURATION then (d, c, false)
      else
        let result := { freshData with lastScan := now }
        (result, { data := some result, lastScan := now, isStale := false }, true)
  | none =>
      let result := { freshData with lastScan := now }
      (result, { data := some result, lastScan := now, isStale := false }, true)

/-! ### Background thumbnail generation (`generateThumbnailsInBackground`)

Jobs are the pending images.  Whether `generateThumbnailFast` succeeds or
throws for a given job is modelled by the `outcome` oracle.  Inside the
batch loop each job's callback increments `processedCount` on success (and
possibly broadcasts a throttled global-progress event) or, in its `catch`,
increments `errorCount`; because every callback catches its own error, the
surrounding `Promise.all` never rejects, so the `errorCount += batch.length`
branch is dead.  Batch grouping only bounds concurrency and inserts
delays — each job is processed exactly once and the counter updates are
serialized — so the counter/broadcast semantics are modelled by a fold
over the job list. -/

/-- A pending generation job (the fields the scheduler reads). -/
structure Job where
  name : String
  relativePath : String
deriving DecidableEq, Repr

/-- `THUMBNAIL_CONFIG.batchSize` selection in `generateThumbnailsInBackground`:
`large` (10) above 500 pending jobs, `medium` (6) above 100, else `small` (3). -/
def batchSizeFor (pending : Nat) : Nat :=
  if pending > 500 then 10 else if pending > 100 then 6 else 3

/-- `Math.max(10, Math.floor(pendingImages.length / THUMBNAIL_CONFIG.broadcastRatio))`
with `broadcastRatio = 50`. -/
def broadcastIntervalFor (pending : Nat) : Nat :=
  max 10 (pending / 50)

/-- The scheduler counters while the batch loop runs:
`processed` = `processedCount` (successes), `errors` = `errorCount`
(failures), `lastBroadcast` as in the source, and the `completed` values
(`processedCount + errorCount`) carried by the throttled intermediate
global-progress events, in emission order. -/
structure GenState where
  processed : Nat
  errors : Nat
  lastBroadcast : Nat
  emitted : List Nat
deriving DecidableEq, Repr

/-- One job's callback: on success increment `processedCount` and emit a
global-progress event when at least `interval` successes accumulated since
`lastBroadcast`; on failure the `catch` increments `errorCount`. -/
def processJob (interval : Nat) (outcome : Bool) (s : GenState) : GenState :=
  match outcome with
  | true =>
      if interval ≤ s.processed + 1 - s.lastBroadcast then
        { processed := s.processed + 1, errors := s.errors,
          lastBroadcast := s.processed + 1,
          emitted := s.emitted ++ [s.processed + 1 + s.errors] }
      else
        { s with processed := s.processed + 1 }
  | false =>
      { s with errors := s.errors + 1 }

/-- The final global-progress event and terminal counters of
`generateThumbnailsInBackground`. -/
structure FinalReport where
  total : Nat
  completed : Nat
  progress : Nat
  isGenerating : Bool
  succeeded : Nat
  failed : Nat
  intermediateEmits : List Nat
deriving DecidableEq, Repr

/-- `generateThumbnailsInBackground(pendingImages)`: run every job through
the batch loop, then set the terminal state
`{completed = processedCount + errorCount, progress = 100, isGenerating = false}`
and broadcast it unconditionally. -/
def generateThumbnailsInBackground (jobs : List Job) (outcome : Job → Bool) :
    FinalReport :=
  let interval := broadcastIntervalFor jobs.length
  let s := jobs.foldl (fun st j => processJob interval (outcome j) st)
    { processed := 0, errors := 0, lastBroadcast := 0, emitted := [] }
  { total := jobs.length, completed := s.processed + s.errors,
    progress := 100, isGenerating := false,
    succeeded := s.processed, failed := s.errors,
    intermediateEmits := s.emitted }

/-- Gaps of at least `interval` between consecutive values of a list,
measured from the starting count `prev` (the completion count at the
previous global-progress emission; the run's initial event carries 0). -/
def chainGap (interval : Nat) (prev : Nat) : List Nat → Prop
  | [] => True
  | x :: xs => (prev + interval ≤ x) ∧ chainGap interval x xs

/-- The completion count at the previous emission: the last element of the
emission list, or the starting count when nothing has been emitted. -/
def lastVal (c : Nat) : List Nat → Nat
  | [] => c
  | x :: xs => lastVal x xs

/-- The broadcast-throttling invariant carried through the batch loop. -/
def throttleInv (iv : Nat) (s : GenState) : Prop :=
  s.lastBroadcast ≤ s.processed ∧
  lastVal 0 s.emitted ≤ s.lastBroadcast + s.errors ∧
  chainGap iv 0 s.emitted

/-! ### Viewport-priority scheduling

Modelled from the spec: the viewport-priority queue machinery
(`reportViewport`, the separate viewport and background queues, and the
drain order) is documented for this repository (spec §4.4 and the
repository's `/api/viewport-items` endpoint description) but its
implementation is not among the provided sources, only the background
batch loop is.  Per the spec: two FIFO queues; `reportViewport` moves a
job matching a reported path to the front of the viewport queue if not
already completed; the viewport queue is always drained before the
background queue. -/

/-- Modelled from the spec: the scheduler's pending state — a viewport
queue and a background queue, both FIFO. -/
structure SchedState where
  viewportQ : List Job
  backgroundQ : List Job
deriving DecidableEq, Repr

/-- Modelled from the spec: move the job matching one reported path to the
front of the viewport queue (from wherever it is pending); paths matching
no pending job (already completed or unknown) are ignored. -/
def promoteToViewport (p : String) (s : SchedState) : SchedState :=
  match s.viewportQ.find? (fun j => j.relativePath == p) with
  | some j =>
      { s with viewportQ := j :: s.viewportQ.eraseP (fun j => j.relativePath == p) }
  | none =>
      match s.backgroundQ.find? (fun j => j.relativePath == p) with
      | some j =>
          { viewportQ := j :: s.viewportQ,
            backgroundQ := s.backgroundQ.eraseP (fun j => j.relativePath == p) }
      | none => s

/-- Modelled from the spec: `reportViewport(relativePaths)` promotes each
reported path in order. -/
def reportViewport (paths : List String) (s : SchedState) : SchedState :=
  paths.foldl (fun s p => promoteToViewport p s) s

/-- Modelled from the spec: the order in which pending jobs complete —
the viewport queue is drained FIFO before the background queue. -/
def completionOrder (s : SchedState) : List Job :=
  s.viewportQ ++ s.backgroundQ

/-! ## Supporting lemmas

All definitions are above; everything from here on is a theorem. -/

theorem charToVal_valToChar : ∀ v : Nat, v < 64 → charToVal (valToChar v) = some v := by
  decide

theorem charToVal_pad : charToVal '=' = none := by decide

theorem b64decode_b64encode (bs : List Nat) (h : ∀ b ∈ bs, b < 256) :
    b64decode (b64encode bs) = bs := by
  induction bs using b64encode.induct with
  | case1 => rfl
  | case2 b0 =>
      have h0 : b0 < 256 := h b0 (by simp)
      simp only [b64encode, b64decode, List.filterMap_cons,
        charToVal_valToChar (b0 / 4) (by omega),
        charToVal_valToChar (b0 % 4 * 16) (by omega),
        charToVal_pad, List.filterMap_nil, sextetsToBytes]
      congr 1
      omega
  | case3 b0 b1 =>
      have h0 : b0 < 256 := h b0 (by simp)
      have h1 : b1 < 256 := h b1 (by simp)
      simp only [b64encode, b64decode, List.filterMap_cons,
        charToVal_valToChar (b0 / 4) (by omega),
        charToVal_valToChar (b0 % 4 * 16 + b1 / 16) (by omega),
        charToVal_valToChar (b1 % 16 * 4) (by omega),
        charToVal_pad, List.filterMap_nil, sextetsToBytes, List.cons.injEq,
        and_true]
      constructor <;> omega
  | case4 b0 b1 b2 rest ih =>
      have h0 : b0 < 256 := h b0 (by simp)
      have h1 : b1 < 256 := h b1 (by simp)
      have h2 : b2 < 256 := h b2 (by simp)
      have hrest : ∀ b ∈ rest, b < 256 := fun b hb => h b (by simp [hb])
      simp only [b64encode, b64decode, List.filterMap_cons,
        charToVal_valToChar (b0 / 4) (by omega),
        charToVal_valToChar (b0 % 4 * 16 + b1 / 16) (by omega),
        charToVal_valToChar (b1 % 16 * 4 + b2 / 64) (by omega),
        charToVal_valToChar (b2 % 64) (by omega),
        sextetsToBytes, List.cons.injEq]
      refine ⟨by omega, by omega, by omega, ?_⟩
      exact ih hrest

theorem scanList_append (dirPath relDir : String) (xs ys : List FSEntry) :
    scanList dirPath relDir (xs ++ ys) =
      scanList dirPath relDir xs ++ scanList dirPath relDir ys := by
  induction xs with
  | nil => simp [scanList]
  | cons e rest ih =>
      cases e with
      | file name size mtime => simp [scanList, ih]
      | dir name contents => cases contents <;> simp [scanList, ih]

theorem likelyThumbnail_of_matches (filePath filename : String)
    (h : matchesThumbPattern filename = true) :
    isLikelyThumbnail filePath filename = true := by
  unfold isLikelyThumbnail
  rw [h]
  cases containsSubstr ".gallery-cache" filePath <;> simp

theorem scanList_matches_false (dirPath relDir : String) (es : List FSEntry) :
    ∀ d ∈ scanList dirPath relDir es, matchesThumbPattern d.name = false := by
  induction dirPath, relDir, es using scanList.induct with
  | case1 =>
      intro d hd
      simp [scanList] at hd
  | case2 dirPath relDir name size mtime rest ih =>
      intro d hd
      simp only [scanList, List.mem_append] at hd
      rcases hd with hd | hd
      · by_cases hc : (isMedia name && !isLikelyThumbnail (dirPath ++ "/" ++ name) name) = true
        · rw [if_pos hc] at hd
          simp only [List.mem_singleton] at hd
          subst hd
          by_contra hmt
          have hlk := likelyThumbnail_of_matches (dirPath ++ "/" ++ name) name
            (by simpa using hmt)
          simp [hlk] at hc
        · rw [if_neg hc] at hd
          simp at hd
      · exact ih d hd
  | case3 dirPath relDir name contents rest ih1 ih2 =>
      intro d hd
      cases contents with
      | none =>
          simp only [scanList, List.mem_append] at hd
          rcases hd with hd | hd
          · split at hd <;> simp at hd
          · exact ih2 d hd
      | some entries =>
          simp only [scanList, List.mem_append] at hd
          rcases hd with hd | hd
          · by_cases hc : dirAllowed name = true
            · rw [if_pos hc] at hd
              exact ih1 d hd
            · rw [if_neg hc] at hd
              simp at hd
          · exact ih2 d hd

theorem cleanup_eq_filter (decode : String → Option String)
    (sourceExists : String → Bool) (ts : List String) :
    cleanupOrphanedThumbnails decode sourceExists ts =
      ts.filter (isOrphanKey decode sourceExists) := by
  induction ts with
  | nil => rfl
  | cons t rest ih =>
      simp only [cleanupOrphanedThumbnails, List.filter_cons]
      cases hj : endsWithStr t ".jpg" with
      | false => simp [isOrphanKey, hj, ih]
      | true =>
          cases hdec : decode (replaceFirst t ".jpg") with
          | none => simp [isOrphanKey, hj, hdec, ih]
          | some orig =>
              cases hex : sourceExists orig <;>
                simp [isOrphanKey, hj, hdec, hex, ih]

theorem processJob_true_processed (iv : Nat) (s : GenState) :
    (processJob iv true s).processed = s.processed + 1 := by
  simp only [processJob]
  split <;> rfl

theorem processJob_true_errors (iv : Nat) (s : GenState) :
    (processJob iv true s).errors = s.errors := by
  simp only [processJob]
  split <;> rfl

theorem processJob_false (iv : Nat) (s : GenState) :
    processJob iv false s = { s with errors := s.errors + 1 } := rfl

theorem foldl_processJob_counts (iv : Nat) (outcome : Job → Bool) :
    ∀ (jobs : List Job) (s : GenState),
      (jobs.foldl (fun st j => processJob iv (outcome j) st) s).processed
          = s.processed + (jobs.filter outcome).length ∧
      (jobs.foldl (fun st j => processJob iv (outcome j) st) s).errors
          = s.errors + (jobs.filter (fun j => !outcome j)).length := by
  intro jobs
  induction jobs with
  | nil => intro s; simp
  | cons j rest ih =>
      intro s
      rcases ih (processJob iv (outcome j) s) with ⟨hp, he⟩
      cases hj : outcome j with
      | true =>
          simp only [List.foldl_cons, hj] at hp he ⊢
          rw [hp, he, processJob_true_processed, processJob_true_errors]
          simp [List.filter_cons, hj]
          omega
      | false =>
          simp only [List.foldl_cons, hj] at hp he ⊢
          rw [hp, he, processJob_false]
          simp [List.filter_cons, hj]
          omega

theorem lastVal_append_single (c x : Nat) :
    ∀ l : List Nat, lastVal c (l ++ [x]) = x := by
  intro l
  induction l generalizing c with
  | nil => rfl
  | cons y ys ih => simpa [lastVal] using ih y

theorem chainGap_append_single (iv x : Nat) :
    ∀ (l : List Nat) (c : Nat), chainGap iv c l → lastVal c l + iv ≤ x →
      chainGap iv c (l ++ [x]) := by
  intro l
  induction l with
  | nil => intro c _ hx; exact ⟨hx, trivial⟩
  | cons y ys ih =>
      intro c hc hx
      exact ⟨hc.1, ih y hc.2 hx⟩

theorem processJob_preserves_throttleInv (iv : Nat) (b : Bool) (s : GenState)
    (hs : throttleInv iv s) : throttleInv iv (processJob iv b s) := by
  obtain ⟨h1, h2, h3⟩ := hs
  cases b with
  | false =>
      refine ⟨h1, ?_, h3⟩
      show lastVal 0 s.emitted ≤ s.lastBroadcast + (s.errors + 1)
      omega
  | true =>
      simp only [processJob]
      by_cases hb : iv ≤ s.processed + 1 - s.lastBroadcast
      · rw [if_pos hb]
        refine ⟨le_refl _, ?_, ?_⟩
        · show lastVal 0 (s.emitted ++ [s.processed + 1 + s.errors]) ≤
            s.processed + 1 + s.errors
          rw [lastVal_append_single]
        · exact chainGap_append_single iv _ s.emitted 0 h3 (by omega)
      · rw [if_neg hb]
        refine ⟨?_, h2, h3⟩
        show s.lastBroadcast ≤ s.processed + 1
        omega

theorem foldl_processJob_throttleInv (iv : Nat) (outcome : Job → Bool) :
    ∀ (jobs : List Job) (s : GenState), throttleInv iv s →
      throttleInv iv (jobs.foldl (fun st j => processJob iv (outcome j) st) s) := by
  intro jobs
  induction jobs with
  | nil => intro s hs; exact hs
  | cons j rest ih =>
      intro s hs
      exact ih _ (processJob_preserves_throttleInv iv (outcome j) s hs)

theorem find_by_relpath (A : Job) :
    ∀ l : List Job, A ∈ l → (l.map Job.relativePath).Nodup →
      l.find? (fun j => j.relativePath == A.relativePath) = some A := by
  intro l
  induction l with
  | nil => intro h; simp at h
  | cons j rest ih =>
      intro hmem hnd
      rw [List.map_cons, List.nodup_cons] at hnd
      rcases List.mem_cons.mp hmem with rfl | h
      · exact List.find?_cons_of_pos (p := fun x => x.relativePath == A.relativePath)
          (a := A) rest (by simp)
      · by_cases hj : (j.relativePath == A.relativePath) = true
        · exfalso
          apply hnd.1
          rw [eq_of_beq hj]
          exact List.mem_map_of_mem Job.relativePath h
        · rw [List.find?_cons_of_neg (p := fun x => x.relativePath == A.relativePath)
            rest hj]
          exact ih h hnd.2

theorem find_none_of_relpath_not_mem (A : Job) (l : List Job)
    (h : ∀ j ∈ l, j.relativePath ≠ A.relativePath) :
    l.find? (fun j => j.relativePath == A.relativePath) = none := by
  rw [List.find?_eq_none]
  intro j hj
  simpa using h j hj

theorem promote_head (s : SchedState) (A : Job)
    (hnd : ((s.viewportQ ++ s.backgroundQ).map Job.relativePath).Nodup)
    (hA : A ∈ s.viewportQ ++ s.backgroundQ) :
    ∃ rest, (promoteToViewport A.relativePath s).viewportQ = A :: rest := by
  rw [List.map_append, List.nodup_append] at hnd
  obtain ⟨hnv, hnb, hdisj⟩ := hnd
  rcases List.mem_append.mp hA with hv | hb
  · refine ⟨s.viewportQ.eraseP (fun j => j.relativePath == A.relativePath), ?_⟩
    unfold promoteToViewport
    rw [find_by_relpath A s.viewportQ hv hnv]
  · have hnone : s.viewportQ.find? (fun j => j.relativePath == A.relativePath) = none := by
      apply find_none_of_relpath_not_mem
      intro j hj heq
      exact hdisj (heq ▸ List.mem_map_of_mem Job.relativePath hj)
        (List.mem_map_of_mem Job.relativePath hb)
    refine ⟨s.viewportQ, ?_⟩
    unfold promoteToViewport
    rw [hnone, find_by_relpath A s.backgroundQ hb hnb]

/-! ## The claims -/

/-- C1.  Orphan safety of `cleanupOrphanedThumbnails` over any thumbnails
listing (without duplicate names, as a directory listing is): an entry
whose key fails to decode is never removed; an entry whose decoded source
still exists is never removed; an entry that is a `.jpg` whose decoded
source is absent is removed exactly once. -/
theorem cleanup_orphan_safety (decode : String → Option String)
    (sourceExists : String → Bool) (thumbs : List String)
    (hnd : thumbs.Nodup) (t p : String) :
    (decode (replaceFirst t ".jpg") = none →
        t ∉ cleanupOrphanedThumbnails decode sourceExists thumbs) ∧
    (decode (replaceFirst t ".jpg") = some p → sourceExists p = true →
        t ∉ cleanupOrphanedThumbnails decode sourceExists thumbs) ∧
    (t ∈ thumbs → endsWithStr t ".jpg" = true →
     decode (replaceFirst t ".jpg") = some p → sourceExists p = false →
        (cleanupOrphanedThumbnails decode sourceExists thumbs).count t = 1) := by
  rw [cleanup_eq_filter]
  refine ⟨?_, ?_, ?_⟩
  · intro hdec hmem
    have := (List.mem_filter.mp hmem).2
    simp [isOrphanKey, hdec] at this
  · intro hdec hex hmem
    have := (List.mem_filter.mp hmem).2
    simp [isOrphanKey, hdec, hex] at this
  · intro hmem hjpg hdec hex
    have horf : isOrphanKey decode sourceExists t = true := by
      simp [isOrphanKey, hjpg, hdec, hex]
    exact List.count_eq_one_of_mem (hnd.filter _)
      (List.mem_filter.mpr ⟨hmem, horf⟩)

/-- Witness for C1: a concrete two-entry listing in which the decodable
orphaned key is removed exactly once. -/
theorem cleanup_orphan_safety_witness :
    (cleanupOrphanedThumbnails
        (fun s => if s = "Zm9v" then some "foo.png" else none)
        (fun _ => false)
        ["Zm9v.jpg", "bad_.jpg"]).count "Zm9v.jpg" = 1 :=
  (cleanup_orphan_safety
      (fun s => if s = "Zm9v" then some "foo.png" else none)
      (fun _ => false) ["Zm9v.jpg", "bad_.jpg"] (by decide)
      "Zm9v.jpg" "foo.png").2.2 (by decide) (by decide) (by decide) (by decide)

/-- C2.  The thumbnail key round-trips: decoding the base64 encoding of any
byte sequence (in particular, the UTF-8 bytes `Buffer.from` produces for
any JS string — unicode, path separators, empty) recovers it exactly. -/
theorem key_roundtrip :
    (∀ bs : List Nat, (∀ b ∈ bs, b < 256) → b64decode (b64encode bs) = bs) ∧
    (∀ s : String, b64decode (b64encode (strBytes s)) = strBytes s) := by
  refine ⟨b64decode_b64encode, ?_⟩
  intro s
  apply b64decode_b64encode
  intro b hb
  simp only [strBytes, List.mem_map] at hb
  obtain ⟨u, _, rfl⟩ := hb
  exact u.toNat_lt

/-- Witness for C2: a concrete byte sequence containing a `0`, a path
separator and a non-ASCII byte round-trips. -/
theorem key_roundtrip_witness :
    b64decode (b64encode [0, 47, 226, 130, 172]) = [0, 47, 226, 130, 172] :=
  key_roundtrip.1 [0, 47, 226, 130, 172] (by decide)

/-- C3.  Calling `getCachedGalleryData` a second time within the
30-second freshness window, with no intervening invalidation or file
change, returns the identical cached result, leaves the cache untouched
and performs no second rescan (whatever fresh data `f₂` a rescan would
have produced, it is not consulted). -/
theorem snapshot_idempotent (c₀ : GalleryCache) (t₁ t₂ : Nat) (f₁ f₂ : GalleryData)
    (h : t₂ - (getCachedGalleryData t₁ f₁ c₀).2.1.lastScan < CACHE_DURATION) :
    getCachedGalleryData t₂ f₂ (getCachedGalleryData t₁ f₁ c₀).2.1 =
      ((getCachedGalleryData t₁ f₁ c₀).1,
       (getCachedGalleryData t₁ f₁ c₀).2.1, false) := by
  cases hc : c₀.data with
  | none =>
      simp only [getCachedGalleryData, hc] at h ⊢
      rw [if_pos ⟨by simp, h⟩]
  | some d =>
      by_cases hcond : (!c₀.isStale ∧ t₁ - c₀.lastScan < CACHE_DURATION)
      · simp only [getCachedGalleryData, hc, if_pos hcond] at h ⊢
        rw [if_pos ⟨hcond.1, h⟩]
      · simp only [getCachedGalleryData, hc, if_neg hcond] at h ⊢
        rw [if_pos ⟨by simp, h⟩]

/-- Witness for C3: a fresh scan at time 10 followed by a call at time
20010 (within the window) returns the stored result without rescanning. -/
theorem snapshot_idempotent_witness :
    getCachedGalleryData 20010 ⟨7, 7, 7⟩
        (getCachedGalleryData 10 ⟨3, 2, 0⟩ ⟨none, 0, true⟩).2.1 =
      ((getCachedGalleryData 10 ⟨3, 2, 0⟩ ⟨none, 0, true⟩).1,
       (getCachedGalleryData 10 ⟨3, 2, 0⟩ ⟨none, 0, true⟩).2.1, false) :=
  snapshot_idempotent ⟨none, 0, true⟩ 10 20010 ⟨3, 2, 0⟩ ⟨7, 7, 7⟩ (by decide)

/-- C4.  At termination of `generateThumbnailsInBackground`, every
enqueued job has reached a terminal state — it is counted either as a
success or as a failure — and the final progress event reports
`completed` equal to successes plus failures, which equals the total job
count. -/
theorem generation_terminal_accounting (jobs : List Job) (outcome : Job → Bool) :
    (generateThumbnailsInBackground jobs outcome).succeeded
        = (jobs.filter outcome).length ∧
    (generateThumbnailsInBackground jobs outcome).failed
        = (jobs.filter (fun j => !outcome j)).length ∧
    (generateThumbnailsInBackground jobs outcome).completed
        = (generateThumbnailsInBackground jobs outcome).succeeded
          + (generateThumbnailsInBackground jobs outcome).failed ∧
    (generateThumbnailsInBackground jobs outcome).completed
        = (generateThumbnailsInBackground jobs outcome).total ∧
    (generateThumbnailsInBackground jobs outcome).total = jobs.length := by
  obtain ⟨hp, he⟩ := foldl_processJob_counts (broadcastIntervalFor jobs.length)
    outcome jobs { processed := 0, errors := 0, lastBroadcast := 0, emitted := [] }
  refine ⟨?_, ?_, rfl, ?_, rfl⟩
  · show (List.foldl
        (fun st j => processJob (broadcastIntervalFor jobs.length) (outcome j) st)
        { processed := 0, errors := 0, lastBroadcast := 0, emitted := [] }
        jobs).processed = (jobs.filter outcome).length
    rw [hp]
    simp
  · show (List.foldl
        (fun st j => processJob (broadcastIntervalFor jobs.length) (outcome j) st)
        { processed := 0, errors := 0, lastBroadcast := 0, emitted := [] }
        jobs).errors = (jobs.filter (fun j => !outcome j)).length
    rw [he]
    simp
  · show (List.foldl
        (fun st j => processJob (broadcastIntervalFor jobs.length) (outcome j) st)
        { processed := 0, errors := 0, lastBroadcast := 0, emitted := [] }
        jobs).processed +
      (List.foldl
        (fun st j => processJob (broadcastIntervalFor jobs.length) (outcome j) st)
        { processed := 0, errors := 0, lastBroadcast := 0, emitted := [] }
        jobs).errors = jobs.length
    rw [hp, he]
    have hsplit := List.length_eq_length_filter_add (l := jobs) outcome
    simpa using hsplit.symm

/-- C5.  The adaptive batch size: at most 100 pending jobs use batches of
3, more than 100 and at most 500 use batches of 6, more than 500 use
batches of 10; in particular 50 → 3, 300 → 6 and 800 → 10. -/
theorem batch_sizing (n : Nat) :
    (n ≤ 100 → batchSizeFor n = 3) ∧
    (100 < n → n ≤ 500 → batchSizeFor n = 6) ∧
    (500 < n → batchSizeFor n = 10) ∧
    batchSizeFor 50 = 3 ∧ batchSizeFor 300 = 6 ∧ batchSizeFor 800 = 10 := by
  refine ⟨?_, ?_, ?_, by decide, by decide, by decide⟩
  · intro h
    unfold batchSizeFor
    split_ifs <;> omega
  · intro h1 h2
    unfold batchSizeFor
    split_ifs <;> omega
  · intro h
    unfold batchSizeFor
    split_ifs <;> omega

/-- Witness for C5: the three spec examples through the theorem. -/
theorem batch_sizing_witness :
    batchSizeFor 50 = 3 ∧ batchSizeFor 300 = 6 ∧ batchSizeFor 800 = 10 :=
  ⟨(batch_sizing 50).1 (by decide),
   (batch_sizing 300).2.1 (by decide) (by decide),
   (batch_sizing 800).2.2.1 (by decide)⟩

/-- C6.  Progress broadcast throttling: every intermediate global-progress
event carries a completion count at least `max(10, total/50)` greater than
the previous emission (the run starts from the initial event's count 0),
and the terminal event reports `progress = 100` and `isGenerating = false`
unconditionally — also when some jobs failed. -/
theorem progress_throttling (jobs : List Job) (outcome : Job → Bool) :
    chainGap (broadcastIntervalFor jobs.length) 0
        (generateThumbnailsInBackground jobs outcome).intermediateEmits ∧
    (generateThumbnailsInBackground jobs outcome).progress = 100 ∧
    (generateThumbnailsInBackground jobs outcome).isGenerating = false := by
  have hinv := foldl_processJob_throttleInv (broadcastIntervalFor jobs.length)
    outcome jobs { processed := 0, errors := 0, lastBroadcast := 0, emitted := [] }
    ⟨Nat.le_refl 0, Nat.le_refl 0, trivial⟩
  exact ⟨hinv.2.2, rfl, rfl⟩

/-- C7.  A scan whose listing contains an unreadable subdirectory does not
abort: the unreadable subtree contributes nothing and the result is
exactly the descriptors of the surrounding readable entries, so every
descriptor from a readable sibling is still returned. -/
theorem scan_partial_failure (dirPath relDir badName : String)
    (pre post : List FSEntry) :
    scanList dirPath relDir (pre ++ FSEntry.dir badName none :: post) =
      scanList dirPath relDir pre ++ scanList dirPath relDir post ∧
    (∀ d ∈ scanList dirPath relDir post,
      d ∈ scanList dirPath relDir (pre ++ FSEntry.dir badName none :: post)) := by
  have h2 : scanList dirPath relDir (FSEntry.dir badName none :: post) =
      scanList dirPath relDir post := by
    simp only [scanList]
    cases h : dirAllowed badName <;> simp
  constructor
  · rw [scanList_append, h2]
  · intro d hd
    rw [scanList_append, h2]
    exact List.mem_append_right _ hd

/-- Witness for C7: with an unreadable directory between two readable
ones, the descriptor of the file in the later readable sibling is still
returned. -/
theorem scan_partial_failure_witness :
    ({ name := "b.png", path := "root/good2/b.png", relativePath := "good2/b.png",
       directory := "good2", size := 3, modified := 4,
       type := "image" } : MediaDescriptor) ∈
      scanList "root" "" ([FSEntry.dir "good1" (some [FSEntry.file "a.jpg" 1 2])] ++
        FSEntry.dir "bad" none ::
          [FSEntry.dir "good2" (some [FSEntry.file "b.png" 3 4])]) :=
  (scan_partial_failure "root" "" "bad"
      [FSEntry.dir "good1" (some [FSEntry.file "a.jpg" 1 2])]
      [FSEntry.dir "good2" (some [FSEntry.file "b.png" 3 4])]).2 _
    (by simp [scanList, joinRel, dirAllowed]
        decide)

/-- C8.  Viewport priority (modelled from the spec; the queue machinery is
not among the provided sources): after `reportViewport([A.relativePath])`
for a pending job `A` in a scheduler state whose pending jobs have
pairwise distinct relative paths, `A` sits at the front of the viewport
queue, so in the generation order `A` completes no later than any pending
job `B`. -/
theorem viewport_priority (s : SchedState) (A B : Job)
    (hnd : ((s.viewportQ ++ s.backgroundQ).map Job.relativePath).Nodup)
    (hA : A ∈ s.viewportQ ++ s.backgroundQ)
    (hB : B ∈ s.viewportQ ++ s.backgroundQ) :
    (reportViewport [A.relativePath] s).viewportQ.head? = some A ∧
    (completionOrder (reportViewport [A.relativePath] s)).indexOf A ≤
      (completionOrder (reportViewport [A.relativePath] s)).indexOf B := by
  obtain ⟨rest, hrest⟩ := promote_head s A hnd hA
  constructor
  · show (promoteToViewport A.relativePath s).viewportQ.head? = some A
    rw [hrest]
    rfl
  · show (completionOrder (promoteToViewport A.relativePath s)).indexOf A ≤
        (completionOrder (promoteToViewport A.relativePath s)).indexOf B
    simp only [completionOrder, hrest, List.cons_append]
    rw [List.indexOf_cons_self]
    exact Nat.zero_le _

/-- Witness for C8: reporting the second background job's path moves it to
the front of the viewport queue. -/
theorem viewport_priority_witness :
    (reportViewport ["b.jpg"]
        { viewportQ := [],
          backgroundQ := [{ name := "a", relativePath := "a.jpg" },
                          { name := "b", relativePath := "b.jpg" }] }).viewportQ.head?
      = some { name := "b", relativePath := "b.jpg" } :=
  (viewport_priority
      { viewportQ := [],
        backgroundQ := [{ name := "a", relativePath := "a.jpg" },
                        { name := "b", relativePath := "b.jpg" }] }
      { name := "b", relativePath := "b.jpg" }
      { name := "a", relativePath := "a.jpg" }
      (by decide) (by decide) (by decide)).1

theorem fullThumbName_ne_tinyThumbName (rel : String) :
    fullThumbName rel ≠ tinyThumbName rel := by
  intro h
  have hlen := congrArg String.length h
  rw [fullThumbName, tinyThumbName, String.length_append, String.length_append] at hlen
  have h4 : (".jpg" : String).length = 4 := rfl
  have h9 : ("_tiny.jpg" : String).length = 9 := rfl
  omega

/-- Counterexample to C9 as stated: for the removed source `"a.png"`, with
both variants on disk, the `unlink` handler deletes the full thumbnail but
leaves the tiny variant in place — it does not delete both variants. -/
theorem remove_both_variants_counterexample :
    fullThumbName "a.png" ∉
        onSourceRemoved [fullThumbName "a.png", tinyThumbName "a.png"] "a.png" ∧
    tinyThumbName "a.png" ∈
        onSourceRemoved [fullThumbName "a.png", tinyThumbName "a.png"] "a.png" := by
  decide

/-- C9 amended.  When a source media file is removed, the watcher's
handler deletes the full thumbnail variant only — one occurrence of
`base64(relativePath) + ".jpg"` — on a best-effort basis: removal of a
nonexistent thumbnail leaves the listing unchanged and raises nothing
(the handler is total), and the tiny variant is never touched. -/
theorem remove_full_variant_only (thumbs : List String) (rel : String)
    (hm : watcherMediaExt rel = true) :
    ((onSourceRemoved thumbs rel).count (fullThumbName rel)
        = thumbs.count (fullThumbName rel) - 1) ∧
    (fullThumbName rel ∉ thumbs → onSourceRemoved thumbs rel = thumbs) ∧
    (tinyThumbName rel ∈ thumbs → tinyThumbName rel ∈ onSourceRemoved thumbs rel) := by
  unfold onSourceRemoved
  rw [if_pos hm]
  refine ⟨List.count_erase_self _ _, fun hnm => List.erase_of_not_mem hnm,
    fun hmem => ?_⟩
  exact (List.mem_erase_of_ne (fullThumbName_ne_tinyThumbName rel).symm).mpr hmem

/-- Witness for C9 (amended): removing a source whose thumbnail is absent
leaves the listing unchanged. -/
theorem remove_full_variant_only_witness :
    onSourceRemoved ["unrelated.jpg"] "a.png" = ["unrelated.jpg"] :=
  (remove_full_variant_only ["unrelated.jpg"] "a.png" (by decide)).2.1 (by decide)

/-- C10.  Any file whose base name matches `^[A-Za-z0-9+/]+=*\.jpg$` is
classified as a generated thumbnail by `isLikelyThumbnail` — whatever its
path, i.e. also outside every cache/thumbnail directory — and therefore
never appears in a scan's returned media list; `"DSC01234.jpg"` is such a
name (and would otherwise count as media). -/
theorem thumbnail_pattern_excluded :
    (∀ filePath filename, matchesThumbPattern filename = true →
        isLikelyThumbnail filePath filename = true) ∧
    (∀ dirPath relDir es, ∀ d ∈ scanList dirPath relDir es,
        matchesThumbPattern d.name = false) ∧
    matchesThumbPattern "DSC01234.jpg" = true ∧
    isMedia "DSC01234.jpg" = true :=
  ⟨likelyThumbnail_of_matches, scanList_matches_false, by decide, by decide⟩

/-- Witness for C10: `"DSC01234.jpg"` is treated as a thumbnail artifact
even in an ordinary album directory. -/
theorem thumbnail_pattern_excluded_witness :
    isLikelyThumbnail "root/album/DSC01234.jpg" "DSC01234.jpg" = true :=
  thumbnail_pattern_excluded.1 "root/album/DSC01234.jpg" "DSC01234.jpg" (by decide)

end GalleryServer
